import Mathlib

/-
  Verification of the dividend-dashboard data pipeline and DCA simulator.

  Shallow embedding of:
  * `src/api/yahooFinance.js` (Vercel variant): `getCachedData`,
    `fetchStocksBatched`, `calculatePortfolioStats` and the quote mapping
    performed inside `fetchStockQuotes`;
  * `calculator.js` (`src/unnamed/part_001`): `calculateDCAScenario`.

  Modelling conventions:
  * JavaScript numbers used for money/prices/counters are modelled as `ℚ`
    (data pipeline, where all arithmetic is field arithmetic) and as `ℝ`
    (DCA simulator, whose price law uses a real power `Math.pow` with a
    fractional exponent).  Timestamps are `ℤ` milliseconds.
  * The network is an explicit oracle `net i a`: the upstream response for
    the i-th batch on its a-th attempt (`none` is any throw out of
    `fetchStockQuotes`: network failure, non-ok response, malformed body).
  * `localStorage` is explicit state: the cache slot passed in and the
    write-back returned.
  * A JavaScript `for`/`while` loop whose termination is not structural is
    embedded with explicit fuel; divergence (no fuel suffices) is denoted
    by `none` in an `Option`-valued denotation, justified by a lemma that
    the fuelled loop returns `none` for every fuel value.
  * String formatting (`toFixed`, `toLocaleString`, `console.log`) is
    presentation-only and omitted: the embedding keeps the numbers that
    the source formats.
-/

namespace DividendDashboard

/-! ### JavaScript helpers: truthiness-based defaulting -/

/-- JavaScript `x || d` for an optional string field: `undefined` and the
empty string are falsy. -/
def jsOrStr (x : Option String) (d : String) : String :=
  match x with
  | some s => if s = "" then d else s
  | none => d

/-- JavaScript `x || d` for an optional numeric field: `undefined` and `0`
are falsy. -/
def jsOrNum (x : Option ℚ) (d : ℚ) : ℚ :=
  match x with
  | some v => if v = 0 then d else v
  | none => d

/-- JavaScript `x ? new Date(x * 1000) : null` for an epoch-seconds field:
`undefined` and `0` give `null`, otherwise milliseconds since the epoch. -/
def jsEpochDate (x : Option ℤ) : Option ℤ :=
  match x with
  | some t => if t = 0 then none else some (t * 1000)
  | none => none

/-! ### Data model: raw upstream quotes and normalized stock records -/

/-- A raw quote object from the Yahoo Finance `quoteResponse.result` array.
Every field may be absent (`undefined` in the source payload). -/
structure RawQuote where
  symbol : Option String
  longName : Option String
  shortName : Option String
  regularMarketPrice : Option ℚ
  currency : Option String
  trailingAnnualDividendRate : Option ℚ
  trailingAnnualDividendYield : Option ℚ
  sector : Option String
  industry : Option String
  marketCap : Option ℚ
  exDividendDate : Option ℤ
  dividendDate : Option ℤ
  regularMarketChange : Option ℚ
  regularMarketChangePercent : Option ℚ
deriving DecidableEq

/-- The canonical stock record produced by the mapping inside
`fetchStockQuotes` (yahooFinance.js lines 159-173). -/
structure Stock where
  ticker : String
  name : String
  price : ℚ
  currency : String
  dividend : ℚ
  dividendYield : ℚ
  sector : String
  industry : String
  marketCap : ℚ
  exDividendDate : Option ℤ
  dividendDate : Option ℤ
  change : ℚ
  changePercent : ℚ
deriving DecidableEq

/-- The `stock => ({...})` mapping applied to each element of
`data.quoteResponse.result` in `fetchStockQuotes`. -/
def mapYahooQuote (stock : RawQuote) : Stock :=
  { ticker := jsOrStr stock.symbol ""
    name := jsOrStr stock.longName (jsOrStr stock.shortName (jsOrStr stock.symbol ""))
    price := jsOrNum stock.regularMarketPrice 0
    currency := jsOrStr stock.currency "USD"
    dividend := jsOrNum stock.trailingAnnualDividendRate 0
    dividendYield := jsOrNum stock.trailingAnnualDividendYield 0
    sector := jsOrStr stock.sector "Unknown"
    industry := jsOrStr stock.industry "Unknown"
    marketCap := jsOrNum stock.marketCap 0
    exDividendDate := jsEpochDate stock.exDividendDate
    dividendDate := jsEpochDate stock.dividendDate
    change := jsOrNum stock.regularMarketChange 0
    changePercent := jsOrNum stock.regularMarketChangePercent 0 }

/-! ### CacheStore -/

/-- The single `localStorage` slot under `CACHE_KEY`:
`{ data, timestamp }` written by `setCachedData`. -/
structure CacheEntry where
  data : List Stock
  timestamp : ℤ
deriving DecidableEq

/-- Cache window: `4 * 60 * 60 * 1000` milliseconds. -/
def CACHE_DURATION : ℤ := 4 * 60 * 60 * 1000

/-- The production API endpoint constant (yahooFinance.js line 8; the
localhost branch of the ternary only changes the string, never emptiness). -/
def API_URL : String := "https://dividend-dashboard.vercel.app/api/stocks"

/-- Function `isApiConfigured`: `API_URL && API_URL.length > 0`. -/
def isApiConfigured : Bool := decide (0 < API_URL.length)

/-- Function `getCachedData`: returns the parsed entry while
`now - timestamp < CACHE_DURATION`, otherwise `null`.  A missing or
unparsable slot is the `none` cache argument. -/
def getCachedData (cache : Option CacheEntry) (now : ℤ) : Option CacheEntry :=
  match cache with
  | none => none
  | some entry => if now - entry.timestamp < CACHE_DURATION then some entry else none

/-! ### BatchFetcher: chunking -/

/-- JavaScript index clamping used by `Array.prototype.slice`. -/
def jsSliceClamp (len : ℤ) (x : ℤ) : ℤ :=
  if x < 0 then max (len + x) 0 else min x len

/-- JavaScript `l.slice(start, stop)`. -/
def jsSlice {α : Type} (l : List α) (start stop : ℤ) : List α :=
  let len : ℤ := l.length
  let s := jsSliceClamp len start
  let e := jsSliceClamp len stop
  (l.drop s.toNat).take (e - s).toNat

/-- The batch-splitting loop of `fetchStocksBatched` (lines 221-223):
`for (let i = 0; i < tickers.length; i += batchSize)
   batches.push(tickers.slice(i, i + batchSize))`,
with explicit fuel.  `none` means the fuel was exhausted with the loop
still running; the loop diverges iff this holds for every fuel. -/
def splitLoop (tickers : List String) (batchSize : ℤ) :
    ℕ → ℤ → List (List String) → Option (List (List String))
  | 0, _, _ => none
  | fuel + 1, i, acc =>
    if i < (tickers.length : ℤ) then
      splitLoop tickers batchSize fuel (i + batchSize)
        (acc ++ [jsSlice tickers i (i + batchSize)])
    else some acc

/-- Chunking with positive width, fuelled by the list length (structural
recursion so that concrete instances compute by `rfl`). -/
def chunkFuel {α : Type} (b : ℕ) : ℕ → List α → List (List α)
  | _, [] => []
  | 0, _ :: _ => []
  | fuel + 1, x :: xs => ((x :: xs).take b) :: chunkFuel b fuel ((x :: xs).drop b)

/-- Consecutive chunks of width `b` of a list (denotation of the batch
splitting loop for `0 < b`). -/
def chunkPos {α : Type} (l : List α) (b : ℕ) : List (List α) :=
  chunkFuel b l.length l

/-- Denotation of the batch-splitting loop: defined for `0 < batchSize`
(or an empty ticker list, where the loop body never runs); `none` records
that the source loop never terminates (see `splitLoop_nonpos_diverges`). -/
def splitTickers (tickers : List String) (batchSize : ℤ) :
    Option (List (List String)) :=
  if 0 < batchSize then some (chunkPos tickers batchSize.toNat)
  else if tickers = [] then some [] else none

/-! ### BatchFetcher: retry loop and batch processing -/

/-- The retry loop `while (attempts < retries && !success)` for one batch:
`f a` is the outcome of attempt number `a`; the first success wins, and
exhausting the attempt budget yields `none`. -/
def tryAttempts (f : ℕ → Option (List RawQuote)) : ℕ → ℕ → Option (List RawQuote)
  | 0, _ => none
  | fuel + 1, a =>
    match f a with
    | some d => some d
    | none => tryAttempts f fuel (a + 1)

/-- Outcome of batch number `i` after up to `retries` attempts. -/
def tryBatch (net : ℕ → ℕ → Option (List RawQuote)) (i retries : ℕ) :
    Option (List RawQuote) :=
  tryAttempts (net i) retries 0

/-- What batch number `i` contributes to `results`: the mapped records of
a successful fetch, nothing once its retries are exhausted (the failure is
logged and the loop moves on). -/
def batchOutcome (net : ℕ → ℕ → Option (List RawQuote)) (retries i : ℕ) :
    List Stock :=
  match tryBatch net i retries with
  | some raw => raw.map mapYahooQuote
  | none => []

/-- The `for (let i = 0; i < batches.length; i++)` loop of
`fetchStocksBatched`: sequentially accumulate `results.push(...data)` for
the successful batches.  The inter-batch `setTimeout` delays are pure
scheduling and have no data effect. -/
def processBatches (net : ℕ → ℕ → Option (List RawQuote)) (retries : ℕ) :
    ℕ → List (List String) → List Stock
  | _, [] => []
  | i, _ :: rest => batchOutcome net retries i ++ processBatches net retries (i + 1) rest

/-- The observable outcome of one `fetchStocksBatched` call: the returned
array and the final content of the cache slot (`none` = not overwritten).
Intermediate per-batch `setCachedData` writes made inside
`fetchStockQuotes` are always superseded: if any batch succeeded the final
`results.length > 0` write overwrites them, and if none succeeded there
were no intermediate writes. -/
structure FetchResult where
  result : List Stock
  cacheWrite : Option (List Stock)
deriving DecidableEq

/-- Function `fetchStocksBatched(tickers, batchSize, retries, forceRefresh)`
(yahooFinance.js lines 205-267).  The outer `Option` is termination of the
batch-splitting loop (`none` = the loop diverges, which happens exactly
for `batchSize ≤ 0` with a non-empty ticker list); `Except` is the
throw/return channel. -/
def fetchStocksBatched (cache : Option CacheEntry) (now : ℤ)
    (net : ℕ → ℕ → Option (List RawQuote)) (tickers : List String)
    (batchSize : ℤ) (retries : ℕ) (forceRefresh : Bool) :
    Option (Except String FetchResult) :=
  match (if forceRefresh then none else getCachedData cache now) with
  | some entry => some (Except.ok ⟨entry.data, none⟩)
  | none =>
    if isApiConfigured = false then
      some (Except.error "API not configured. Please deploy to Vercel first.")
    else
      match splitTickers tickers batchSize with
      | none => none
      | some batches =>
        let results := processBatches net retries 0 batches
        some (Except.ok ⟨results, if 0 < results.length then some results else none⟩)

/-! ### PortfolioAnalytics -/

/-- Portfolio statistics object returned by `calculatePortfolioStats`.
The sector histogram is the function built by the `reduce` accumulator
(`acc[sector] = (acc[sector] || 0) + 1`). -/
structure PortfolioStats where
  totalStocks : ℕ
  avgYield : ℚ
  avgPrice : ℚ
  totalDividend : ℚ
  topYielder : Option Stock
  sectorDistribution : String → ℕ

/-- The sector key used by the histogram: `stock.sector || 'Unknown'`
(the empty string is falsy in JavaScript). -/
def sectorKey (s : Stock) : String :=
  if s.sector = "" then "Unknown" else s.sector

/-- The `topYielder` reduce step.  In the model `dividendYield` is always
present, so the source's `(x.dividendYield || 0)` guard against
`undefined` is the field itself (`0 || 0` is `0`). -/
def topYielderStep (top : Option Stock) (s : Stock) : Option Stock :=
  if (match top with | some t => t.dividendYield | none => 0) < s.dividendYield
  then some s else top

/-- The sector-histogram reduce step. -/
def sectorStep (acc : String → ℕ) (s : Stock) : String → ℕ :=
  Function.update acc (sectorKey s) (acc (sectorKey s) + 1)

/-- Function `calculatePortfolioStats` (yahooFinance.js lines 274-317). -/
def calculatePortfolioStats (stocks : List Stock) : PortfolioStats :=
  let validStocks := stocks.filter (fun s => 0 < s.price)
  if validStocks.length = 0 then
    { totalStocks := 0, avgYield := 0, avgPrice := 0, totalDividend := 0
      topYielder := none, sectorDistribution := fun _ => 0 }
  else
    let totalYield := validStocks.foldl (fun sum s => sum + s.dividendYield) (0 : ℚ)
    let avgYield := totalYield / validStocks.length
    let totalPrice := validStocks.foldl (fun sum s => sum + s.price) (0 : ℚ)
    let avgPrice := totalPrice / validStocks.length
    let totalDividend := validStocks.foldl (fun sum s => sum + s.dividend) (0 : ℚ)
    let topYielder := validStocks.foldl topYielderStep none
    let sectorDistribution := validStocks.foldl sectorStep (fun _ => 0)
    { totalStocks := validStocks.length, avgYield := avgYield, avgPrice := avgPrice
      totalDividend := totalDividend, topYielder := topYielder
      sectorDistribution := sectorDistribution }

/-! ### DCASimulator (`calculateDCAScenario`, calculator.js lines 221-351)

The simulator is embedded over `ℝ`: the price law applies `Math.pow`
with the fractional exponent `(monthIndex - 1) / 12`, which is a real
power (`Real.rpow`, written `x ^ (y : ℝ)` below).  `Math.pow` with a
natural-number exponent (the dividend-growth factors and the year-end
price) agrees with the monoid power.

The source's two nested loops (`year` from 1 to `years`, `month` from 1
to 12) are flattened to a single recursion over the global month index
`monthIndex = (year - 1) * 12 + month`, from which the loop variables are
recovered as `year = (monthIndex - 1) / 12 + 1` and
`month = (monthIndex - 1) % 12 + 1`.  The inner-loop accumulator
`yearDividends` (reset at the top of each year) is carried in the state
and reset when `month = 1`; the end-of-year snapshot for year `y` reads
the state after month `y * 12`. -/

/-- One crash event `{year, drop, recoveryMonths}`. -/
structure MarketCrash where
  year : ℕ
  drop : ℝ
  recoveryMonths : ℕ

/-- The destructured parameter object of `calculateDCAScenario`. -/
structure DCAParams where
  initialInvestment : ℝ
  monthlyDCA : ℝ
  years : ℕ
  currentPrice : ℝ
  currentDividendYield : ℝ
  cagr : ℝ
  dividendGrowth : ℝ
  reinvestThreshold : ℝ
  marketCrashes : List MarketCrash

/-- First active month of a crash: `(c.year - 1) * 12 + 1`. -/
def crashStartMonth (c : MarketCrash) : ℤ := ((c.year : ℤ) - 1) * 12 + 1

/-- JavaScript `c.recoveryMonths || 12` (`0` is falsy). -/
def crashRecovery (c : MarketCrash) : ℕ :=
  if c.recoveryMonths = 0 then 12 else c.recoveryMonths

/-- The `marketCrashes.find(...)` call: the first crash whose window
`[crashStartMonth, crashStartMonth + recoveryMonths)` contains the month. -/
def activeCrash (p : DCAParams) (monthIndex : ℕ) : Option MarketCrash :=
  p.marketCrashes.find? (fun c =>
    decide (crashStartMonth c ≤ (monthIndex : ℤ) ∧
      (monthIndex : ℤ) < crashStartMonth c + (crashRecovery c : ℤ)))

/-- Undisturbed CAGR price:
`currentPrice * Math.pow(1 + cagr, (monthIndex - 1) / 12)`. -/
noncomputable def undisturbedPrice (p : DCAParams) (monthIndex : ℕ) : ℝ :=
  p.currentPrice * (1 + p.cagr) ^ ((((monthIndex : ℝ) - 1) / 12) : ℝ)

/-- The `if (crash)` body (calculator.js lines 276-289): drop the price
by `(1 - drop)` on the crash's first active month, linearly interpolate
back towards the undisturbed price during recovery. -/
noncomputable def crashAdjustedPrice (crash : MarketCrash) (monthIndex : ℕ)
    (base : ℝ) : ℝ :=
  let monthsSinceCrash : ℤ := (monthIndex : ℤ) - crashStartMonth crash
  let recoveryMonths : ℕ := crashRecovery crash
  if monthsSinceCrash = 0 then
    base * (1 - crash.drop)
  else if monthsSinceCrash < (recoveryMonths : ℤ) then
    let recoveryProgress : ℝ := (monthsSinceCrash : ℝ) / (recoveryMonths : ℝ)
    let crashPrice := base * (1 - crash.drop)
    crashPrice + (base - crashPrice) * recoveryProgress
  else base

/-- The month's price after the crash overlay (calculator.js lines
267-289). -/
noncomputable def effectivePrice (p : DCAParams) (monthIndex : ℕ) : ℝ :=
  match activeCrash p monthIndex with
  | none => undisturbedPrice p monthIndex
  | some crash => crashAdjustedPrice crash monthIndex (undisturbedPrice p monthIndex)

/-- The mutable locals of the simulation loop.  `yearDividends` is the
inner-loop accumulator re-initialized at the start of each year. -/
structure DCAState where
  shares : ℝ
  cashBuffer : ℝ
  totalInvested : ℝ
  totalDividendsReceived : ℝ
  totalDividendsReinvested : ℝ
  yearDividends : ℝ

/-- Initialization (lines 245-255): `shares = initialInvestment /
currentPrice` when `initialInvestment > 0`, everything else zero. -/
noncomputable def initState (p : DCAParams) : DCAState :=
  if 0 < p.initialInvestment then
    { shares := p.initialInvestment / p.currentPrice, cashBuffer := 0
      totalInvested := p.initialInvestment, totalDividendsReceived := 0
      totalDividendsReinvested := 0, yearDividends := 0 }
  else
    { shares := 0, cashBuffer := 0, totalInvested := 0
      totalDividendsReceived := 0, totalDividendsReinvested := 0
      yearDividends := 0 }

/-- The year-start reset `let yearDividends = 0`. -/
def resetYearDividends (month : ℕ) (s : DCAState) : DCAState :=
  if month = 1 then { s with yearDividends := 0 } else s

/-- The monthly DCA purchase (lines 292-297): only when `monthlyDCA > 0`. -/
noncomputable def applyDCA (p : DCAParams) (price : ℝ) (s : DCAState) : DCAState :=
  if 0 < p.monthlyDCA then
    { s with shares := s.shares + p.monthlyDCA / price
             totalInvested := s.totalInvested + p.monthlyDCA }
  else s

/-- The dividend accrual (lines 299-306): the per-share annual dividend is
`price * currentDividendYield * Math.pow(1 + dividendGrowth, year - 1)`
and one twelfth of it per share is received this month. -/
noncomputable def receiveDividend (p : DCAParams) (price : ℝ) (year : ℕ)
    (s : DCAState) : DCAState :=
  let annualDividendPerShare :=
    price * p.currentDividendYield * (1 + p.dividendGrowth) ^ (year - 1)
  let monthlyDividend := s.shares * annualDividendPerShare / 12
  { s with cashBuffer := s.cashBuffer + monthlyDividend
           totalDividendsReceived := s.totalDividendsReceived + monthlyDividend
           yearDividends := s.yearDividends + monthlyDividend }

/-- The reinvestment step (lines 309-314): when `cashBuffer ≥
reinvestThreshold`, the entire buffer buys shares at this month's price
and the buffer is reset to zero. -/
noncomputable def reinvestIfThreshold (p : DCAParams) (price : ℝ)
    (s : DCAState) : DCAState :=
  if p.reinvestThreshold ≤ s.cashBuffer then
    { s with shares := s.shares + s.cashBuffer / price
             totalDividendsReinvested := s.totalDividendsReinvested + s.cashBuffer
             cashBuffer := 0 }
  else s

/-- The body of the inner loop for global month `monthIndex ≥ 1`. -/
noncomputable def stepMonth (p : DCAParams) (monthIndex : ℕ) (s : DCAState) :
    DCAState :=
  let year : ℕ := (monthIndex - 1) / 12 + 1
  let month : ℕ := (monthIndex - 1) % 12 + 1
  let price := effectivePrice p monthIndex
  reinvestIfThreshold p price
    (receiveDividend p price year
      (applyDCA p price
        (resetYearDividends month s)))

/-- The state after `n` simulated months. -/
noncomputable def stateAtMonth (p : DCAParams) : ℕ → DCAState
  | 0 => initState p
  | n + 1 => stepMonth p (n + 1) (stateAtMonth p n)

/-- One element of `results.yearlyData` (numbers kept unformatted; the
source stringifies them with `toFixed`). -/
structure YearData where
  year : ℕ
  shares : ℝ
  price : ℝ
  portfolioValue : ℝ
  invested : ℝ
  dividendsReceived : ℝ
  annualDividendIncome : ℝ
  dividendYield : ℝ
  cashBuffer : ℝ

/-- End-of-year snapshot (lines 317-333): note the snapshot price is
`currentPrice * Math.pow(1 + cagr, year)` and the snapshot dividend rate
uses exponent `year`, not `year - 1`. -/
noncomputable def yearSnapshot (p : DCAParams) (year : ℕ) (s : DCAState) :
    YearData :=
  let yearEndPrice := p.currentPrice * (1 + p.cagr) ^ ((year : ℝ) : ℝ)
  let portfolioValue := s.shares * yearEndPrice
  let annualDividendPerShare :=
    yearEndPrice * p.currentDividendYield * (1 + p.dividendGrowth) ^ ((year : ℝ) : ℝ)
  let annualDividendIncome := s.shares * annualDividendPerShare
  { year := year, shares := s.shares, price := yearEndPrice
    portfolioValue := portfolioValue, invested := s.totalInvested
    dividendsReceived := s.yearDividends
    annualDividendIncome := annualDividendIncome
    dividendYield := annualDividendIncome / portfolioValue * 100
    cashBuffer := s.cashBuffer }

/-- The `results` object of `calculateDCAScenario`. -/
structure DCAResults where
  yearlyData : List YearData
  totalInvested : ℝ
  totalShares : ℝ
  finalValue : ℝ
  totalDividendsReceived : ℝ
  totalDividendsReinvested : ℝ
  finalPrice : ℝ
  finalAnnualDividend : ℝ
  finalMonthlyDividend : ℝ

/-- Function `calculateDCAScenario` (calculator.js lines 221-351). -/
noncomputable def calculateDCAScenario (p : DCAParams) : DCAResults :=
  let finalState := stateAtMonth p (p.years * 12)
  let finalPrice := p.currentPrice * (1 + p.cagr) ^ ((p.years : ℝ) : ℝ)
  let finalAnnualDividendPerShare :=
    finalPrice * p.currentDividendYield * (1 + p.dividendGrowth) ^ ((p.years : ℝ) : ℝ)
  { yearlyData :=
      (List.range' 1 p.years).map (fun y => yearSnapshot p y (stateAtMonth p (y * 12)))
    totalInvested := finalState.totalInvested
    totalShares := finalState.shares
    finalValue := finalState.shares * finalPrice
    totalDividendsReceived := finalState.totalDividendsReceived
    totalDividendsReinvested := finalState.totalDividendsReinvested
    finalPrice := finalPrice
    finalAnnualDividend := finalState.shares * finalAnnualDividendPerShare
    finalMonthlyDividend := finalState.shares * finalAnnualDividendPerShare / 12 }

/-- The parameter constraints under which the claims about the monthly
loop are stated: non-negative cash-flow parameters, a positive starting
price, `CAGR > -1`, `dividendGrowth ≥ -1`, and every crash drop in
`[0, 1)`. -/
def ValidParams (p : DCAParams) : Prop :=
  0 ≤ p.initialInvestment ∧ 0 ≤ p.monthlyDCA ∧ 0 ≤ p.currentDividendYield ∧
  0 ≤ p.reinvestThreshold ∧ 0 < p.currentPrice ∧ (-1 : ℝ) < p.cagr ∧
  (-1 : ℝ) ≤ p.dividendGrowth ∧
  ∀ c ∈ p.marketCrashes, 0 ≤ c.drop ∧ c.drop < 1

/-! ### Concrete inputs used by counterexamples and witnesses -/

/-- A sample upstream quote used to exercise the fetch pipeline. -/
def sampleRaw : RawQuote :=
  { symbol := some "AAPL", longName := none, shortName := none
    regularMarketPrice := some 150, currency := some "USD"
    trailingAnnualDividendRate := some 1
    trailingAnnualDividendYield := some (1/100)
    sector := some "Tech", industry := none, marketCap := none
    exDividendDate := none, dividendDate := none
    regularMarketChange := none, regularMarketChangePercent := none }

/-- A valid stock record whose dividend yield is zero. -/
def zeroYieldStock : Stock :=
  { ticker := "A", name := "A", price := 1, currency := "USD", dividend := 0
    dividendYield := 0, sector := "Tech", industry := "Tech", marketCap := 0
    exDividendDate := none, dividendDate := none, change := 0, changePercent := 0 }

/-- Simulation parameters with a total crash (`drop = 1.0`) in year 1. -/
noncomputable def paramsDropOne : DCAParams :=
  { initialInvestment := 1000, monthlyDCA := 100, years := 1
    currentPrice := 100, currentDividendYield := 3/100, cagr := 0
    dividendGrowth := 0, reinvestThreshold := 50
    marketCrashes := [⟨1, 1, 12⟩] }

/-- Simulation parameters with `CAGR = 1` (100 percent a year) and no
crashes, used to separate the two price exponents. -/
noncomputable def paramsCagrOne : DCAParams :=
  { initialInvestment := 0, monthlyDCA := 0, years := 1
    currentPrice := 100, currentDividendYield := 0, cagr := 1
    dividendGrowth := 0, reinvestThreshold := 50, marketCrashes := [] }

/-- The reference crash scenario: crash at year 5, 30 percent drop,
12-month recovery, flat CAGR. -/
noncomputable def paramsCrashDemo : DCAParams :=
  { initialInvestment := 1000, monthlyDCA := 100, years := 10
    currentPrice := 100, currentDividendYield := 3/100, cagr := 0
    dividendGrowth := 0, reinvestThreshold := 50
    marketCrashes := [⟨5, 3/10, 12⟩] }

/-- The immediate-reinvestment scenario (`reinvestThreshold = 0`). -/
noncomputable def paramsThresholdZero : DCAParams :=
  { initialInvestment := 1000, monthlyDCA := 500, years := 10
    currentPrice := 100, currentDividendYield := 3/100, cagr := 8/100
    dividendGrowth := 5/100, reinvestThreshold := 0, marketCrashes := [] }

/-- A baseline valid scenario with the default threshold. -/
noncomputable def paramsBasic : DCAParams :=
  { initialInvestment := 1000, monthlyDCA := 500, years := 10
    currentPrice := 100, currentDividendYield := 3/100, cagr := 8/100
    dividendGrowth := 5/100, reinvestThreshold := 50, marketCrashes := [] }

/-! ## Lemmas about chunking and the batch-splitting loop -/

/-- Chunking does not depend on the fuel once it covers the list. -/
lemma chunkFuel_congr {α : Type} {b : ℕ} (hb : 0 < b) :
    ∀ (f₁ : ℕ) (f₂ : ℕ) (l : List α), l.length ≤ f₁ → l.length ≤ f₂ →
      chunkFuel b f₁ l = chunkFuel b f₂ l := by
  intro f₁
  induction f₁ with
  | zero =>
    intro f₂ l h₁ _
    have hl : l = [] := List.length_eq_zero.mp (Nat.le_zero.mp h₁)
    subst hl
    cases f₂ <;> rfl
  | succ g ih =>
    intro f₂ l h₁ h₂
    cases l with
    | nil => cases f₂ <;> rfl
    | cons x xs =>
      cases f₂ with
      | zero => simp at h₂
      | succ h =>
        simp only [chunkFuel]
        congr 1
        apply ih
        · simp at h₁ ⊢; omega
        · simp at h₂ ⊢; omega

/-- Unfolding of `chunkPos` on a non-empty list. -/
lemma chunkPos_cons {α : Type} {b : ℕ} (hb : 0 < b) (x : α) (xs : List α) :
    chunkPos (x :: xs) b = (x :: xs).take b :: chunkPos ((x :: xs).drop b) b := by
  show chunkFuel b (x :: xs).length (x :: xs) = _
  simp only [List.length_cons, chunkFuel]
  congr 1
  apply chunkFuel_congr hb
  · simp; omega
  · simp

/-- The chunks of a list concatenate back to the list. -/
lemma chunkPos_flatten {α : Type} {b : ℕ} (hb : 0 < b) (l : List α) :
    (chunkPos l b).flatten = l := by
  have key : ∀ (n : ℕ) (l : List α), l.length ≤ n → (chunkPos l b).flatten = l := by
    intro n
    induction n with
    | zero =>
      intro l h
      have hl : l = [] := List.length_eq_zero.mp (Nat.le_zero.mp h)
      subst hl; rfl
    | succ n ih =>
      intro l h
      cases l with
      | nil => rfl
      | cons x xs =>
        rw [chunkPos_cons hb, List.flatten_cons, ih]
        · exact List.take_append_drop _ _
        · simp at h ⊢; omega
  exact key l.length l le_rfl

/-- There are `⌈|l| / b⌉` chunks. -/
lemma chunkPos_length {α : Type} {b : ℕ} (hb : 0 < b) (l : List α) :
    (chunkPos l b).length = (l.length + b - 1) / b := by
  have key : ∀ (n : ℕ) (l : List α), l.length ≤ n →
      (chunkPos l b).length = (l.length + b - 1) / b := by
    intro n
    induction n with
    | zero =>
      intro l h
      have hl : l = [] := List.length_eq_zero.mp (Nat.le_zero.mp h)
      subst hl
      simp [chunkPos, chunkFuel, Nat.div_eq_of_lt (by omega : b - 1 < b)]
    | succ n ih =>
      intro l h
      cases l with
      | nil => simp [chunkPos, chunkFuel, Nat.div_eq_of_lt (by omega : b - 1 < b)]
      | cons x xs =>
        rw [chunkPos_cons hb, List.length_cons, ih ((x :: xs).drop b) (by simp at h ⊢; omega)]
        simp only [List.length_drop, List.length_cons]
        rcases le_or_lt (xs.length + 1) b with hle | hlt
        · have e₁ : xs.length + 1 - b = 0 := by omega
          have e₂ : xs.length + 1 + b - 1 = xs.length + b := by omega
          rw [e₁, e₂, Nat.zero_add, Nat.div_eq_of_lt (by omega : b - 1 < b),
            Nat.add_div_right _ hb, Nat.div_eq_of_lt (by omega : xs.length < b)]
        · have e₁ : xs.length + 1 - b + b - 1 = xs.length := by omega
          have e₂ : xs.length + 1 + b - 1 = xs.length + b := by omega
          rw [e₁, e₂, Nat.add_div_right _ hb]
  exact key l.length l le_rfl

/-- Every chunk has at most `b` elements. -/
lemma chunkPos_size {α : Type} {b : ℕ} (hb : 0 < b) (l : List α) :
    ∀ c ∈ chunkPos l b, c.length ≤ b := by
  have key : ∀ (n : ℕ) (l : List α), l.length ≤ n →
      ∀ c ∈ chunkPos l b, c.length ≤ b := by
    intro n
    induction n with
    | zero =>
      intro l h
      have hl : l = [] := List.length_eq_zero.mp (Nat.le_zero.mp h)
      subst hl
      intro c hc
      simp [chunkPos, chunkFuel] at hc
    | succ n ih =>
      intro l h
      cases l with
      | nil => intro c hc; simp [chunkPos, chunkFuel] at hc
      | cons x xs =>
        rw [chunkPos_cons hb]
        intro c hc
        rcases List.mem_cons.mp hc with hk | hk
        · subst hk
          simp
        · exact ih ((x :: xs).drop b) (by simp at h ⊢; omega) c hk
  exact key l.length l le_rfl

/-- With a non-positive batch size and a non-empty ticker list, the
batch-splitting loop never terminates: no amount of fuel suffices. -/
lemma splitLoop_nonpos_diverges {tickers : List String} {batchSize : ℤ}
    (hb : batchSize ≤ 0) (ht : tickers ≠ []) :
    ∀ (fuel : ℕ) (i : ℤ) (acc : List (List String)), i ≤ 0 →
      splitLoop tickers batchSize fuel i acc = none := by
  intro fuel
  induction fuel with
  | zero => intro i acc _; rfl
  | succ f ih =>
    intro i acc hi
    have hlen : 0 < (tickers.length : ℤ) := by
      have := List.length_pos.mpr ht
      exact_mod_cast this
    simp only [splitLoop, if_pos (lt_of_le_of_lt hi hlen)]
    exact ih _ _ (by omega)

/-- JavaScript `l.slice(i, i + b)` for `0 ≤ i`, `0 ≤ b` is "drop `i`,
take `b`". -/
lemma jsSlice_eq {α : Type} (l : List α) (i b : ℤ) (hi : 0 ≤ i) (hb : 0 ≤ b) :
    jsSlice l i (i + b) = (l.drop i.toNat).take b.toNat := by
  simp only [jsSlice, jsSliceClamp, if_neg (not_lt.mpr hi), if_neg (not_lt.mpr (by omega : (0:ℤ) ≤ i + b))]
  rcases le_or_lt i (l.length : ℤ) with hle | hlt
  · have hmin : min i (l.length : ℤ) = i := min_eq_left hle
    rw [hmin, List.take_eq_take]
    simp only [List.length_drop]
    omega
  · have hmin : min i (l.length : ℤ) = (l.length : ℤ) := min_eq_right (le_of_lt hlt)
    have hmin2 : min (i + b) (l.length : ℤ) = (l.length : ℤ) := min_eq_right (by omega)
    rw [hmin, hmin2]
    have hd : l.drop i.toNat = [] := List.drop_eq_nil_of_le (by omega)
    rw [hd]
    simp [List.drop_length]

/-- With a positive batch size, the batch-splitting loop terminates as
soon as the fuel covers the ticker list, and computes the chunks. -/
lemma splitLoop_pos {tickers : List String} {batchSize : ℤ} (hb : 0 < batchSize) :
    ∀ (fuel : ℕ) (i : ℤ) (acc : List (List String)), 0 ≤ i →
      tickers.length ≤ fuel + i.toNat →
      splitLoop tickers batchSize (fuel + 1) i acc =
        some (acc ++ chunkPos (tickers.drop i.toNat) batchSize.toNat) := by
  intro fuel
  induction fuel with
  | zero =>
    intro i acc hi hcov
    have hge : ¬ i < (tickers.length : ℤ) := by omega
    simp only [splitLoop, if_neg hge]
    have hd : tickers.drop i.toNat = [] := List.drop_eq_nil_of_le (by omega)
    rw [hd]
    simp [chunkPos, chunkFuel]
  | succ f ih =>
    intro i acc hi hcov
    by_cases hlt : i < (tickers.length : ℤ)
    · have step : splitLoop tickers batchSize (f + 1 + 1) i acc =
          splitLoop tickers batchSize (f + 1) (i + batchSize)
            (acc ++ [jsSlice tickers i (i + batchSize)]) := by
        simp only [splitLoop, if_pos hlt]
      rw [step, ih (i + batchSize) _ (by omega) (by omega)]
      have hbn : 0 < batchSize.toNat := by omega
      have hne : tickers.drop i.toNat ≠ [] := by
        intro hnil
        have := List.drop_eq_nil_iff.mp hnil
        omega
      obtain ⟨y, ys, hys⟩ := List.exists_cons_of_ne_nil hne
      have hcchunk : chunkPos (tickers.drop i.toNat) batchSize.toNat =
          (tickers.drop i.toNat).take batchSize.toNat ::
            chunkPos ((tickers.drop i.toNat).drop batchSize.toNat) batchSize.toNat := by
        rw [hys, chunkPos_cons hbn, ← hys]
      rw [hcchunk, jsSlice_eq tickers i batchSize hi (le_of_lt hb)]
      have hdd : (tickers.drop i.toNat).drop batchSize.toNat =
          tickers.drop (i + batchSize).toNat := by
        rw [List.drop_drop]
        congr 1
        omega
      rw [hdd]
      simp
    · have hge : ¬ i < (tickers.length : ℤ) := hlt
      simp only [splitLoop, if_neg hge]
      have hd : tickers.drop i.toNat = [] := List.drop_eq_nil_of_le (by omega)
      rw [hd]
      simp [chunkPos, chunkFuel]

/-! ## Lemmas about the retry loop and batch processing -/

/-- A retry loop over a dead network exhausts its attempts. -/
lemma tryAttempts_allFail {f : ℕ → Option (List RawQuote)}
    (hf : ∀ a, f a = none) : ∀ (fuel a : ℕ), tryAttempts f fuel a = none := by
  intro fuel
  induction fuel with
  | zero => intro a; rfl
  | succ g ih =>
    intro a
    simp only [tryAttempts, hf a]
    exact ih (a + 1)

/-- The batch loop is the concatenation, in batch order, of what each
batch contributes. -/
lemma processBatches_eq_flatten (net : ℕ → ℕ → Option (List RawQuote))
    (retries : ℕ) :
    ∀ (batches : List (List String)) (i : ℕ),
      processBatches net retries i batches =
        ((List.range batches.length).map
          (fun j => batchOutcome net retries (i + j))).flatten := by
  intro batches
  induction batches with
  | nil => intro i; rfl
  | cons bt rest ih =>
    intro i
    have step : processBatches net retries i (bt :: rest) =
        batchOutcome net retries i ++ processBatches net retries (i + 1) rest := rfl
    rw [step, ih (i + 1), List.length_cons, List.range_succ_eq_map, List.map_cons,
      List.flatten_cons, List.map_map, Nat.add_zero]
    congr 1
    apply congrArg
    apply List.map_congr_left
    intro a _
    simp only [Function.comp_apply]
    congr 1
    omega

/-- If every attempt for every batch fails, the batch loop contributes
nothing. -/
lemma processBatches_allFail {net : ℕ → ℕ → Option (List RawQuote)}
    (hnet : ∀ i a, net i a = none) (retries : ℕ) :
    ∀ (batches : List (List String)) (i : ℕ),
      processBatches net retries i batches = [] := by
  intro batches
  induction batches with
  | nil => intro i; rfl
  | cons bt rest ih =>
    intro i
    simp only [processBatches, batchOutcome, tryBatch,
      tryAttempts_allFail (hnet i) retries 0, List.nil_append]
    exact ih (i + 1)

/-- The API endpoint constant is non-empty, so `isApiConfigured` holds and
the "API not configured" throw in `fetchStocksBatched` is unreachable. -/
lemma isApiConfigured_eq_true : isApiConfigured = true := by decide

/-- On a cache miss with a positive batch size, `fetchStocksBatched`
returns normally with the concatenated batch outcomes. -/
lemma fetchStocksBatched_cacheMiss (cache : Option CacheEntry) (now : ℤ)
    (net : ℕ → ℕ → Option (List RawQuote)) (tickers : List String)
    {batchSize : ℤ} (retries : ℕ)
    (hc : getCachedData cache now = none) (hb : 0 < batchSize) :
    fetchStocksBatched cache now net tickers batchSize retries false =
      some (Except.ok
        ⟨processBatches net retries 0 (chunkPos tickers batchSize.toNat),
         if 0 < (processBatches net retries 0 (chunkPos tickers batchSize.toNat)).length
         then some (processBatches net retries 0 (chunkPos tickers batchSize.toNat))
         else none⟩) := by
  simp only [fetchStocksBatched, Bool.false_eq_true, if_false, hc,
    isApiConfigured_eq_true, splitTickers, if_pos hb]
  simp

/-! ## C8: behaviour on non-positive batch sizes -/

/-- Claim C8, counterexample: with a non-empty ticker list, an absent
cache and `batchSize = 0`, the call does not fail with a validation
error; the batch-splitting loop diverges (denoted `none`; see
`splitLoop_nonpos_diverges` for the fuel-exhaustion fact). -/
theorem C8_counterexample :
    fetchStocksBatched none 0 (fun _ _ => none) ["AAPL"] 0 3 false = none := by
  rfl

/-- Claim C8 (amended): `fetchStocksBatched` performs no validation of
`batchSize`.  For `batchSize ≤ 0` and a non-empty ticker list with the
cache absent, the batch-splitting loop never terminates (no fuel bound
suffices), so the call neither rejects nor returns; for every positive
batch size the chunking loop terminates once the fuel covers the list,
producing the consecutive chunks. -/
theorem C8_no_validation_loop_diverges (cache : Option CacheEntry) (now : ℤ)
    (net : ℕ → ℕ → Option (List RawQuote)) (tickers : List String)
    (batchSize : ℤ) (retries : ℕ)
    (hc : getCachedData cache now = none) (ht : tickers ≠ [])
    (hb : batchSize ≤ 0) :
    fetchStocksBatched cache now net tickers batchSize retries false = none
    ∧ (∀ (fuel : ℕ) (i : ℤ) (acc : List (List String)), i ≤ 0 →
        splitLoop tickers batchSize fuel i acc = none)
    ∧ (∀ b : ℤ, 0 < b →
        splitTickers tickers b = some (chunkPos tickers b.toNat)
        ∧ ∀ fuel : ℕ, tickers.length ≤ fuel →
            splitLoop tickers b (fuel + 1) 0 [] =
              some (chunkPos tickers b.toNat)) := by
  refine ⟨?_, splitLoop_nonpos_diverges hb ht, ?_⟩
  · have hsplit : splitTickers tickers batchSize = none := by
      simp only [splitTickers, if_neg (by omega : ¬ 0 < batchSize), if_neg ht]
    simp only [fetchStocksBatched, Bool.false_eq_true, if_false, hc,
      isApiConfigured_eq_true, hsplit]
    simp
  · intro b hbpos
    refine ⟨by simp [splitTickers, hbpos], ?_⟩
    intro fuel hfuel
    have := splitLoop_pos hbpos fuel 0 [] le_rfl (by simpa using hfuel)
    simpa using this

/-- Witness for C8: the amended statement applied at a concrete call
(`tickers = ["AAPL"]`, `batchSize = 0`, empty cache). -/
theorem C8_witness :
    getCachedData none 0 = none ∧ (["AAPL"] : List String) ≠ [] ∧ (0 : ℤ) ≤ 0 ∧
    (fetchStocksBatched none 0 (fun _ _ => some []) ["AAPL"] 0 3 false = none
     ∧ (∀ (fuel : ℕ) (i : ℤ) (acc : List (List String)), i ≤ 0 →
         splitLoop ["AAPL"] 0 fuel i acc = none)
     ∧ (∀ b : ℤ, 0 < b →
         splitTickers ["AAPL"] b = some (chunkPos ["AAPL"] b.toNat)
         ∧ ∀ fuel : ℕ, (["AAPL"] : List String).length ≤ fuel →
             splitLoop ["AAPL"] b (fuel + 1) 0 [] =
               some (chunkPos ["AAPL"] b.toNat))) :=
  ⟨rfl, by simp, le_refl 0,
    C8_no_validation_loop_diverges none 0 (fun _ _ => some []) ["AAPL"] 0 3
      rfl (by simp) (le_refl 0)⟩

/-! ## C5: chunking and order preservation -/

/-- Claim C5: with the cache absent and `batchSize > 0`,
`fetchStocksBatched` partitions the ticker list into `⌈|T| / b⌉`
consecutive chunks of size at most `b` whose concatenation is the
original list (order preserved within and across chunks), and the
returned sequence is the concatenation, in chunk order, of the normalized
outcomes of the chunks, where a chunk whose retries are exhausted
contributes nothing (`batchOutcome = []`) and processing continues with
the remaining chunks. -/
theorem C5_chunking_order (cache : Option CacheEntry) (now : ℤ)
    (net : ℕ → ℕ → Option (List RawQuote)) (tickers : List String)
    (batchSize : ℤ) (retries : ℕ)
    (hc : getCachedData cache now = none) (hb : 0 < batchSize) :
    splitTickers tickers batchSize = some (chunkPos tickers batchSize.toNat)
    ∧ (chunkPos tickers batchSize.toNat).length =
        (tickers.length + batchSize.toNat - 1) / batchSize.toNat
    ∧ (chunkPos tickers batchSize.toNat).flatten = tickers
    ∧ (∀ c ∈ chunkPos tickers batchSize.toNat, c.length ≤ batchSize.toNat)
    ∧ ∃ w, fetchStocksBatched cache now net tickers batchSize retries false =
        some (Except.ok
          ⟨((List.range (chunkPos tickers batchSize.toNat).length).map
              (fun j => batchOutcome net retries j)).flatten, w⟩) := by
  have hbn : 0 < batchSize.toNat := by omega
  refine ⟨by simp [splitTickers, hb], chunkPos_length hbn tickers,
    chunkPos_flatten hbn tickers, chunkPos_size hbn tickers, ?_⟩
  have hpb : processBatches net retries 0 (chunkPos tickers batchSize.toNat) =
      ((List.range (chunkPos tickers batchSize.toNat).length).map
        (fun j => batchOutcome net retries j)).flatten := by
    rw [processBatches_eq_flatten]
    simp
  have hfetch := fetchStocksBatched_cacheMiss cache now net tickers retries hc hb
  rw [hpb] at hfetch
  exact ⟨_, hfetch⟩

/-- Witness for C5: seven tickers in batches of three make chunks
`[3, 3, 1]`; with the middle batch failing all retries, the result is the
normalized first and third batches in order. -/
theorem C5_witness :
    getCachedData none 0 = none ∧ (0 : ℤ) < 3 ∧
    (splitTickers ["A", "B", "C", "D", "E", "F", "G"] 3 =
        some (chunkPos ["A", "B", "C", "D", "E", "F", "G"] (3 : ℤ).toNat)
     ∧ (chunkPos ["A", "B", "C", "D", "E", "F", "G"] (3 : ℤ).toNat).length =
        ((["A", "B", "C", "D", "E", "F", "G"] : List String).length + (3 : ℤ).toNat - 1) /
          (3 : ℤ).toNat
     ∧ (chunkPos ["A", "B", "C", "D", "E", "F", "G"] (3 : ℤ).toNat).flatten =
        ["A", "B", "C", "D", "E", "F", "G"]
     ∧ (∀ c ∈ chunkPos ["A", "B", "C", "D", "E", "F", "G"] (3 : ℤ).toNat,
          c.length ≤ (3 : ℤ).toNat)
     ∧ ∃ w, fetchStocksBatched none 0
          (fun i _ => if i = 1 then none else some [sampleRaw])
          ["A", "B", "C", "D", "E", "F", "G"] 3 2 false =
        some (Except.ok
          ⟨((List.range (chunkPos ["A", "B", "C", "D", "E", "F", "G"] (3 : ℤ).toNat).length).map
              (fun j => batchOutcome (fun i _ => if i = 1 then none else some [sampleRaw]) 2 j)).flatten,
           w⟩)) :=
  ⟨rfl, by norm_num,
    C5_chunking_order none 0 (fun i _ => if i = 1 then none else some [sampleRaw])
      ["A", "B", "C", "D", "E", "F", "G"] 3 2 rfl (by norm_num)⟩

/-! ## C3: partial and total failure -/

/-- Claim C3, counterexample: with the cache absent and every attempt of
every chunk failing (total inability to reach the source),
`fetchStocksBatched` does not raise: it returns the empty sequence
normally (the "No data received" error is thrown by the caller in
`main.js`, not by `fetchStocksBatched`). -/
theorem C3_counterexample :
    fetchStocksBatched none 0 (fun _ _ => none) ["AAPL"] 50 3 false =
      some (Except.ok ⟨[], none⟩) := by
  rfl

/-- Claim C3 (amended): with the cache absent and a positive batch size,
`fetchStocksBatched` never raises: it always returns the accumulated
(possibly partial) sequence normally, and when every chunk fails after
all retries it returns the empty sequence (without writing the cache);
surfacing that empty result as an error is the caller's job. -/
theorem C3_no_raise_on_failure (cache : Option CacheEntry) (now : ℤ)
    (net : ℕ → ℕ → Option (List RawQuote)) (tickers : List String)
    (batchSize : ℤ) (retries : ℕ)
    (hc : getCachedData cache now = none) (hb : 0 < batchSize) :
    (∃ fr, fetchStocksBatched cache now net tickers batchSize retries false =
        some (Except.ok fr))
    ∧ ((∀ i a, net i a = none) →
        fetchStocksBatched cache now net tickers batchSize retries false =
          some (Except.ok ⟨[], none⟩)) := by
  constructor
  · exact ⟨_, fetchStocksBatched_cacheMiss cache now net tickers retries hc hb⟩
  · intro hnet
    have hfetch := fetchStocksBatched_cacheMiss cache now net tickers retries hc hb
    rw [processBatches_allFail hnet retries _ 0] at hfetch
    simpa using hfetch

/-- Witness for C3: the amended statement applied at a concrete dead
network with two tickers in one batch. -/
theorem C3_witness :
    getCachedData none 0 = none ∧ (0 : ℤ) < 50 ∧
    ((∃ fr, fetchStocksBatched none 0 (fun _ _ => none) ["AAPL", "KO"] 50 3 false =
        some (Except.ok fr))
     ∧ ((∀ (i a : ℕ), (fun (_ _ : ℕ) => (none : Option (List RawQuote))) i a = none) →
        fetchStocksBatched none 0 (fun _ _ => none) ["AAPL", "KO"] 50 3 false =
          some (Except.ok ⟨[], none⟩))) :=
  ⟨rfl, by norm_num,
    C3_no_raise_on_failure none 0 (fun _ _ => none) ["AAPL", "KO"] 50 3 rfl
      (by norm_num)⟩

/-! ## C4: cache idempotence -/

/-- Claim C4: if a fetch completes successfully and writes `d` to the
cache, then a second `fetchStocksBatched` call with `forceRefresh = false`
made while `now - timestamp < CACHE_DURATION` returns exactly `d` and
performs zero network calls: the result does not depend on the network
oracle `net₂` (the early return happens before any batch is fetched) and
the cache is not rewritten. -/
theorem C4_cache_idempotence (cache : Option CacheEntry) (now₁ : ℤ)
    (net net₂ : ℕ → ℕ → Option (List RawQuote)) (T T₂ : List String)
    (b b₂ : ℤ) (r r₂ : ℕ) (force : Bool) (fr : FetchResult) (d : List Stock)
    (ts now₂ : ℤ)
    (h₁ : fetchStocksBatched cache now₁ net T b r force = some (Except.ok fr))
    (h₂ : fr.cacheWrite = some d)
    (h₃ : now₂ - ts < CACHE_DURATION) :
    fetchStocksBatched (some ⟨d, ts⟩) now₂ net₂ T₂ b₂ r₂ false =
      some (Except.ok ⟨d, none⟩) := by
  have hcache : getCachedData (some ⟨d, ts⟩) now₂ = some ⟨d, ts⟩ := by
    simp [getCachedData, h₃]
  simp only [fetchStocksBatched, Bool.false_eq_true, if_false, hcache]

/-- Witness for C4: a concrete first call succeeds, writes its mapped
result, and a second call 1000 ms later returns that exact data without
consulting the (different) network oracle. -/
theorem C4_witness :
    fetchStocksBatched none 0 (fun _ _ => some [sampleRaw]) ["AAPL"] 50 3 false =
      some (Except.ok ⟨[mapYahooQuote sampleRaw], some [mapYahooQuote sampleRaw]⟩)
    ∧ ((1000 : ℤ) - 0 < CACHE_DURATION)
    ∧ fetchStocksBatched (some ⟨[mapYahooQuote sampleRaw], 0⟩) 1000
        (fun _ _ => none) [] 50 3 false =
      some (Except.ok ⟨[mapYahooQuote sampleRaw], none⟩) :=
  ⟨rfl, by norm_num [CACHE_DURATION],
    C4_cache_idempotence none 0 (fun _ _ => some [sampleRaw]) (fun _ _ => none)
      ["AAPL"] [] 50 50 3 3 false
      ⟨[mapYahooQuote sampleRaw], some [mapYahooQuote sampleRaw]⟩
      [mapYahooQuote sampleRaw] 0 1000 rfl rfl (by norm_num [CACHE_DURATION])⟩

/-! ## Lemmas about `calculatePortfolioStats` -/

/-- The sector fold counts occurrences of each sector key. -/
lemma sectorFold_count :
    ∀ (l : List Stock) (acc : String → ℕ) (sec : String),
      (l.foldl sectorStep acc) sec = acc sec + (l.map sectorKey).count sec := by
  intro l
  induction l with
  | nil => intro acc sec; simp
  | cons s rest ih =>
    intro acc sec
    rw [List.foldl_cons, ih, List.map_cons, List.count_cons]
    by_cases h : sec = sectorKey s
    · subst h
      simp [sectorStep, Function.update]
      omega
    · have h₂ : ¬ sectorKey s = sec := fun hs => h hs.symm
      simp [sectorStep, Function.update, h, h₂]

/-- Once the running maximum is present, it stays present. -/
lemma topYielderFold_some :
    ∀ (l : List Stock) (t : Stock),
      ∃ r, l.foldl topYielderStep (some t) = some r := by
  intro l
  induction l with
  | nil => intro t; exact ⟨t, rfl⟩
  | cons s rest ih =>
    intro t
    rw [List.foldl_cons]
    unfold topYielderStep
    by_cases h : t.dividendYield < s.dividendYield
    · simpa [h] using ih s
    · simpa [h] using ih t

/-- Starting from `null`, the fold stays `null` exactly when no element
has a strictly positive yield (the `null` seed compares as yield `0`). -/
lemma topYielderFold_none_iff :
    ∀ (l : List Stock),
      (l.foldl topYielderStep none = none ↔ ∀ s ∈ l, s.dividendYield ≤ 0) := by
  intro l
  induction l with
  | nil => simp
  | cons s rest ih =>
    rw [List.foldl_cons]
    by_cases h : (0 : ℚ) < s.dividendYield
    · have hstep : topYielderStep none s = some s := by simp [topYielderStep, h]
      rw [hstep]
      obtain ⟨r, hr⟩ := topYielderFold_some rest s
      rw [hr]
      simp only [reduceCtorEq, false_iff, not_forall]
      exact ⟨s, List.mem_cons_self s rest, by simpa using h⟩
    · have hstep : topYielderStep none s = none := by simp [topYielderStep, h]
      rw [hstep, ih]
      constructor
      · intro hall t ht
        rcases List.mem_cons.mp ht with hk | hk
        · subst hk; exact le_of_not_lt h
        · exact hall t hk
      · intro hall t ht
        exact hall t (List.mem_cons_of_mem s ht)

/-- Whatever the fold returns either was the seed or is an element. -/
lemma topYielderFold_mem :
    ∀ (l : List Stock) (top : Option Stock) (r : Stock),
      l.foldl topYielderStep top = some r → top = some r ∨ r ∈ l := by
  intro l
  induction l with
  | nil => intro top r h; exact Or.inl h
  | cons s rest ih =>
    intro top r h
    rw [List.foldl_cons] at h
    rcases ih (topYielderStep top s) r h with hk | hk
    · unfold topYielderStep at hk
      split at hk
      · have hsr : s = r := Option.some_inj.mp hk
        subst hsr
        exact Or.inr (List.mem_cons_self _ _)
      · exact Or.inl hk
    · exact Or.inr (List.mem_cons_of_mem s hk)

/-! ## C10: portfolio statistics invariants -/

/-- Claim C10, counterexample: one valid record (price `1 > 0`) whose
dividend yield is `0` gives `totalStocks = 1` but `topYielder = null`:
the reduce seeded with `null` only replaces it when a yield is strictly
greater than `0`, so "topYielder is null exactly when totalStocks = 0"
fails. -/
theorem C10_counterexample :
    (calculatePortfolioStats [zeroYieldStock]).totalStocks = 1 ∧
    (calculatePortfolioStats [zeroYieldStock]).topYielder = none := by
  constructor <;> rfl

/-- Claim C10 (amended): `calculatePortfolioStats` returns `totalStocks`
equal to the number of records with `price > 0`, the sector histogram
counts sum to `totalStocks`, `topYielder` is `null` iff every valid
record has `dividendYield ≤ 0` (in particular whenever `totalStocks = 0`),
and a non-null `topYielder` is one of the valid records. -/
theorem C10_stats_invariants (stocks : List Stock) :
    (calculatePortfolioStats stocks).totalStocks =
      (stocks.filter (fun s => 0 < s.price)).length
    ∧ (∑ sec ∈ ((stocks.filter (fun s => 0 < s.price)).map sectorKey).toFinset,
        (calculatePortfolioStats stocks).sectorDistribution sec) =
      (calculatePortfolioStats stocks).totalStocks
    ∧ ((calculatePortfolioStats stocks).topYielder = none ↔
        ∀ s ∈ stocks.filter (fun s => 0 < s.price), s.dividendYield ≤ 0)
    ∧ (∀ t, (calculatePortfolioStats stocks).topYielder = some t →
        t ∈ stocks.filter (fun s => 0 < s.price)) := by
  by_cases hlen : (stocks.filter (fun s => 0 < s.price)).length = 0
  · have hnil : stocks.filter (fun s => 0 < s.price) = [] :=
      List.length_eq_zero.mp hlen
    rw [calculatePortfolioStats]
    simp [hnil, hlen]
  · have hdist : (calculatePortfolioStats stocks).sectorDistribution =
        (stocks.filter (fun s => 0 < s.price)).foldl sectorStep (fun _ => 0) := by
      simp [calculatePortfolioStats, hlen]
    have htot : (calculatePortfolioStats stocks).totalStocks =
        (stocks.filter (fun s => 0 < s.price)).length := by
      simp [calculatePortfolioStats, hlen]
    have htop : (calculatePortfolioStats stocks).topYielder =
        (stocks.filter (fun s => 0 < s.price)).foldl topYielderStep none := by
      simp [calculatePortfolioStats, hlen]
    refine ⟨htot, ?_, ?_, ?_⟩
    · rw [hdist, htot]
      have hcount : ∀ sec,
          ((stocks.filter (fun s => 0 < s.price)).foldl sectorStep (fun _ => 0)) sec =
            ((stocks.filter (fun s => 0 < s.price)).map sectorKey).count sec := by
        intro sec
        rw [sectorFold_count]
        simp
      calc ∑ sec ∈ ((stocks.filter (fun s => 0 < s.price)).map sectorKey).toFinset,
              ((stocks.filter (fun s => 0 < s.price)).foldl sectorStep (fun _ => 0)) sec
          = ∑ sec ∈ ((stocks.filter (fun s => 0 < s.price)).map sectorKey).toFinset,
              ((stocks.filter (fun s => 0 < s.price)).map sectorKey).count sec :=
            Finset.sum_congr rfl (fun sec _ => hcount sec)
        _ = (stocks.filter (fun s => 0 < s.price)).length := by
            have := Multiset.toFinset_sum_count_eq
              (((stocks.filter (fun s => 0 < s.price)).map sectorKey : List String) : Multiset String)
            simpa using this
    · rw [htop]
      exact topYielderFold_none_iff _
    · intro t ht
      rw [htop] at ht
      rcases topYielderFold_mem _ none t ht with hk | hk
      · exact absurd hk (by simp)
      · exact hk

/-- Witness for C10: the amended statement applied to the spec's worked
example (two valid tech records, one invalid zero-price record). -/
theorem C10_witness :
    (calculatePortfolioStats
        [{ zeroYieldStock with price := 100, dividendYield := 5/100 },
         { zeroYieldStock with price := 50, dividendYield := 3/100 },
         { zeroYieldStock with price := 0, dividendYield := 9/10 }]).totalStocks =
      ([{ zeroYieldStock with price := 100, dividendYield := 5/100 },
         { zeroYieldStock with price := 50, dividendYield := 3/100 },
         { zeroYieldStock with price := 0, dividendYield := 9/10 }].filter
          (fun s => 0 < s.price)).length
    ∧ (∑ sec ∈ (([{ zeroYieldStock with price := 100, dividendYield := 5/100 },
         { zeroYieldStock with price := 50, dividendYield := 3/100 },
         { zeroYieldStock with price := 0, dividendYield := 9/10 }].filter
          (fun s => 0 < s.price)).map sectorKey).toFinset,
        (calculatePortfolioStats
          [{ zeroYieldStock with price := 100, dividendYield := 5/100 },
           { zeroYieldStock with price := 50, dividendYield := 3/100 },
           { zeroYieldStock with price := 0, dividendYield := 9/10 }]).sectorDistribution sec) =
      (calculatePortfolioStats
        [{ zeroYieldStock with price := 100, dividendYield := 5/100 },
         { zeroYieldStock with price := 50, dividendYield := 3/100 },
         { zeroYieldStock with price := 0, dividendYield := 9/10 }]).totalStocks
    ∧ ((calculatePortfolioStats
          [{ zeroYieldStock with price := 100, dividendYield := 5/100 },
           { zeroYieldStock with price := 50, dividendYield := 3/100 },
           { zeroYieldStock with price := 0, dividendYield := 9/10 }]).topYielder = none ↔
        ∀ s ∈ [{ zeroYieldStock with price := 100, dividendYield := 5/100 },
           { zeroYieldStock with price := 50, dividendYield := 3/100 },
           { zeroYieldStock with price := 0, dividendYield := 9/10 }].filter
            (fun s => 0 < s.price), s.dividendYield ≤ 0)
    ∧ (∀ t, (calculatePortfolioStats
          [{ zeroYieldStock with price := 100, dividendYield := 5/100 },
           { zeroYieldStock with price := 50, dividendYield := 3/100 },
           { zeroYieldStock with price := 0, dividendYield := 9/10 }]).topYielder = some t →
        t ∈ [{ zeroYieldStock with price := 100, dividendYield := 5/100 },
           { zeroYieldStock with price := 50, dividendYield := 3/100 },
           { zeroYieldStock with price := 0, dividendYield := 9/10 }].filter
            (fun s => 0 < s.price)) :=
  C10_stats_invariants
    [{ zeroYieldStock with price := 100, dividendYield := 5/100 },
     { zeroYieldStock with price := 50, dividendYield := 3/100 },
     { zeroYieldStock with price := 0, dividendYield := 9/10 }]

/-! ## Lemmas about the DCA price law -/

/-- The undisturbed price is positive for a positive start price and
`CAGR > -1`. -/
lemma undisturbedPrice_pos {p : DCAParams} (hp : 0 < p.currentPrice)
    (hc : (-1 : ℝ) < p.cagr) (m : ℕ) : 0 < undisturbedPrice p m :=
  mul_pos hp (Real.rpow_pos_of_pos (by linarith) _)

/-- A crash window always has at least one recovery month. -/
lemma crashRecovery_pos (c : MarketCrash) : 0 < crashRecovery c := by
  unfold crashRecovery
  split <;> omega

/-- A crash returned by `activeCrash` belongs to the configured list and
its window contains the month. -/
lemma activeCrash_spec {p : DCAParams} {m : ℕ} {c : MarketCrash}
    (h : activeCrash p m = some c) :
    c ∈ p.marketCrashes ∧ crashStartMonth c ≤ (m : ℤ) ∧
      (m : ℤ) < crashStartMonth c + (crashRecovery c : ℤ) := by
  refine ⟨List.mem_of_find?_eq_some h, ?_⟩
  have := List.find?_some h
  simpa using this

/-- Inside its window, the crash-adjusted price stays positive provided
the base price is positive and the drop is in `[0, 1)`. -/
lemma crashAdjustedPrice_pos {c : MarketCrash} {m : ℕ} {base : ℝ}
    (hbase : 0 < base) (hd₀ : 0 ≤ c.drop) (hd₁ : c.drop < 1)
    (hwin : crashStartMonth c ≤ (m : ℤ)) :
    0 < crashAdjustedPrice c m base := by
  unfold crashAdjustedPrice
  dsimp only
  split
  · exact mul_pos hbase (by linarith)
  · split
    · rename_i hms₀ hms₁
      have hrec : (0 : ℝ) < (crashRecovery c : ℝ) := by
        exact_mod_cast crashRecovery_pos c
      have hmsR : (0 : ℝ) < (((m : ℤ) - crashStartMonth c : ℤ) : ℝ) := by
        have h1 : 0 ≤ (m : ℤ) - crashStartMonth c := by omega
        have h2 : (m : ℤ) - crashStartMonth c ≠ 0 := hms₀
        exact_mod_cast lt_of_le_of_ne h1 (Ne.symm h2)
      have hmsLt : (((m : ℤ) - crashStartMonth c : ℤ) : ℝ) < (crashRecovery c : ℝ) := by
        exact_mod_cast hms₁
      have hprog₀ : 0 < (((m : ℤ) - crashStartMonth c : ℤ) : ℝ) / (crashRecovery c : ℝ) :=
        div_pos hmsR hrec
      have hprog₁ : (((m : ℤ) - crashStartMonth c : ℤ) : ℝ) / (crashRecovery c : ℝ) < 1 :=
        (div_lt_one hrec).mpr hmsLt
      nlinarith [mul_pos hbase hprog₀, mul_nonneg (mul_nonneg hbase.le hd₀)
        hprog₀.le]
    · exact hbase

/-- The effective monthly price is positive for valid parameters. -/
lemma effectivePrice_pos {p : DCAParams} (hv : ValidParams p) (m : ℕ) :
    0 < effectivePrice p m := by
  obtain ⟨-, -, -, -, hp, hc, -, hcr⟩ := hv
  have hbase := undisturbedPrice_pos hp hc m
  unfold effectivePrice
  cases hfind : activeCrash p m with
  | none => exact hbase
  | some c =>
    obtain ⟨hmem, hwin, -⟩ := activeCrash_spec hfind
    obtain ⟨hd₀, hd₁⟩ := hcr c hmem
    exact crashAdjustedPrice_pos hbase hd₀ hd₁ hwin

/-! ## C2: snapshot and final prices -/

/-- The snapshot prices are `currentPrice * (1 + cagr) ^ year` for years
1 to `years`, independent of the simulated state and of the crash list. -/
lemma yearlyData_price_map (p : DCAParams) :
    (calculateDCAScenario p).yearlyData.map YearData.price =
      (List.range' 1 p.years).map
        (fun y : ℕ => p.currentPrice * (1 + p.cagr) ^ ((y : ℕ) : ℝ)) := by
  simp only [calculateDCAScenario, List.map_map]
  apply List.map_congr_left
  intro y _
  rfl

/-- The final price is `currentPrice * (1 + cagr) ^ years`. -/
lemma finalPrice_eq (p : DCAParams) :
    (calculateDCAScenario p).finalPrice =
      p.currentPrice * (1 + p.cagr) ^ ((p.years : ℝ) : ℝ) := rfl

/-- Claim C2, counterexample: with `CAGR = 1` and one simulated year, the
code's year-1 snapshot price is `100 * 2 = 200`, but the claimed formula
`startPrice * (1 + CAGR) ^ ((1*12 - 1)/12)` gives `100 * 2^(11/12) < 200`.
The snapshot uses exponent `year`, not `(year*12 - 1)/12`. -/
theorem C2_counterexample :
    (calculateDCAScenario paramsCagrOne).yearlyData.map YearData.price = [200]
    ∧ paramsCagrOne.currentPrice *
        (1 + paramsCagrOne.cagr) ^ (((((1 * 12 : ℕ) : ℝ)) - 1) / 12) ≠ 200 := by
  constructor
  · rw [yearlyData_price_map]
    have hy : paramsCagrOne.years = 1 := rfl
    rw [hy, List.range'_one, List.map_cons, List.map_nil]
    simp only [paramsCagrOne, Nat.cast_one, Real.rpow_one]
    norm_num
  · have hlt : (2 : ℝ) ^ (((((1 * 12 : ℕ) : ℝ)) - 1) / 12) < 2 := by
      have h₁ : (((((1 * 12 : ℕ) : ℝ)) - 1) / 12) = (11 : ℝ) / 12 := by norm_num
      rw [h₁]
      calc (2 : ℝ) ^ ((11 : ℝ) / 12) < (2 : ℝ) ^ ((1 : ℝ)) :=
            Real.rpow_lt_rpow_of_exponent_lt one_lt_two (by norm_num)
        _ = 2 := Real.rpow_one 2
    have : paramsCagrOne.currentPrice *
        (1 + paramsCagrOne.cagr) ^ (((((1 * 12 : ℕ) : ℝ)) - 1) / 12) < 200 := by
      show (100 : ℝ) * (1 + 1) ^ (((((1 * 12 : ℕ) : ℝ)) - 1) / 12) < 200
      norm_num
      nlinarith [Real.rpow_pos_of_pos (by norm_num : (0:ℝ) < 2)
        (((((1 * 12 : ℕ) : ℝ)) - 1) / 12), hlt]
    exact ne_of_lt this

/-- Claim C2 (amended): for every parameter set, the year-`y` snapshot
price equals `startPrice * (1 + CAGR) ^ y` (the undisturbed formula at
month `y*12 + 1`, not at month `y*12`), the final price equals
`startPrice * (1 + CAGR) ^ years`, and neither depends on the crash
list (the crash overlay is never re-applied). -/
theorem C2_snapshot_final_prices (p : DCAParams) :
    (calculateDCAScenario p).yearlyData.map YearData.price =
      (List.range' 1 p.years).map
        (fun y : ℕ => p.currentPrice * (1 + p.cagr) ^ ((y : ℕ) : ℝ))
    ∧ (calculateDCAScenario p).finalPrice =
        p.currentPrice * (1 + p.cagr) ^ ((p.years : ℝ) : ℝ)
    ∧ ∀ crashes : List MarketCrash,
        (calculateDCAScenario { p with marketCrashes := crashes }).yearlyData.map
            YearData.price =
          (calculateDCAScenario p).yearlyData.map YearData.price
        ∧ (calculateDCAScenario { p with marketCrashes := crashes }).finalPrice =
          (calculateDCAScenario p).finalPrice := by
  refine ⟨yearlyData_price_map p, finalPrice_eq p, ?_⟩
  intro crashes
  constructor
  · rw [yearlyData_price_map, yearlyData_price_map]
  · rw [finalPrice_eq, finalPrice_eq]

/-! ## C6: the crash overlay at months 49 and 60 -/

/-- Claim C6: with the single crash `{year := 5, drop := 0.3,
recoveryMonths := 12}`, a positive start price and `CAGR > -1`, the
effective price at month 49 is exactly `0.7` times the undisturbed price,
and the effective price at month 60 lies strictly between the crashed
price and the undisturbed price at month 60. -/
theorem C6_crash_overlay (p : DCAParams)
    (hcrash : p.marketCrashes = [⟨5, 3/10, 12⟩])
    (hp : 0 < p.currentPrice) (hc : (-1 : ℝ) < p.cagr) :
    effectivePrice p 49 = undisturbedPrice p 49 * (7 / 10)
    ∧ undisturbedPrice p 60 * (7 / 10) < effectivePrice p 60
    ∧ effectivePrice p 60 < undisturbedPrice p 60 := by
  have hc49 : activeCrash p 49 = some ⟨5, 3/10, 12⟩ := by
    rw [activeCrash, hcrash]
    apply List.find?_cons_of_pos
    simp [crashStartMonth, crashRecovery]
  have hc60 : activeCrash p 60 = some ⟨5, 3/10, 12⟩ := by
    rw [activeCrash, hcrash]
    apply List.find?_cons_of_pos
    simp [crashStartMonth, crashRecovery]
  have hbase60 : 0 < undisturbedPrice p 60 := undisturbedPrice_pos hp hc 60
  refine ⟨?_, ?_, ?_⟩
  · rw [effectivePrice, hc49]
    unfold crashAdjustedPrice
    norm_num [crashStartMonth]
  · rw [effectivePrice, hc60]
    unfold crashAdjustedPrice
    norm_num [crashStartMonth, crashRecovery]
    nlinarith [hbase60]
  · rw [effectivePrice, hc60]
    unfold crashAdjustedPrice
    norm_num [crashStartMonth, crashRecovery]
    nlinarith [hbase60]

/-- Witness for C6: the crash scenario instantiated with start price 100
and zero CAGR. -/
theorem C6_witness :
    paramsCrashDemo.marketCrashes = [⟨5, 3/10, 12⟩]
    ∧ (0 : ℝ) < paramsCrashDemo.currentPrice
    ∧ (-1 : ℝ) < paramsCrashDemo.cagr
    ∧ (effectivePrice paramsCrashDemo 49 = undisturbedPrice paramsCrashDemo 49 * (7 / 10)
       ∧ undisturbedPrice paramsCrashDemo 60 * (7 / 10) < effectivePrice paramsCrashDemo 60
       ∧ effectivePrice paramsCrashDemo 60 < undisturbedPrice paramsCrashDemo 60) :=
  ⟨rfl, by norm_num [paramsCrashDemo], by norm_num [paramsCrashDemo],
    C6_crash_overlay paramsCrashDemo rfl (by norm_num [paramsCrashDemo])
      (by norm_num [paramsCrashDemo])⟩

/-! ## C1: absence of configuration validation -/

/-- Claim C1, counterexample: with a crash of `drop = 1.0` configured for
year 1, `calculateDCAScenario` does not reject the configuration: the
simulation runs (its yearly series is produced) and the effective price
at the crash's first month is exactly `0`, so the monthly DCA purchase
and the reinvestment both divide by zero in that month. -/
theorem C1_counterexample :
    effectivePrice paramsDropOne 1 = 0
    ∧ (calculateDCAScenario paramsDropOne).yearlyData.length = 1 := by
  constructor
  · have hc : activeCrash paramsDropOne 1 = some ⟨1, 1, 12⟩ := by
      rw [activeCrash, show paramsDropOne.marketCrashes = [⟨1, 1, 12⟩] from rfl]
      apply List.find?_cons_of_pos
      simp [crashStartMonth, crashRecovery]
    rw [effectivePrice, hc]
    unfold crashAdjustedPrice
    norm_num [crashStartMonth]
  · simp [calculateDCAScenario]
    rfl

/-- Claim C1 (corrected): `calculateDCAScenario` performs no input
validation and has no error channel.  For any parameter set whose first
crash has `drop ≥ 1.0` (given a non-negative start price and
`CAGR ≥ -1`), the effective price at the crash's first active month is
`≤ 0` — zero for `drop = 1.0`, the claimed division-by-zero/negative
price — and the simulation still produces its full year-by-year output
instead of failing fast. -/
theorem C1_no_validation (p : DCAParams) (c : MarketCrash) (tl : List MarketCrash)
    (hlist : p.marketCrashes = c :: tl)
    (hdrop : 1 ≤ c.drop) (hyear : 1 ≤ c.year)
    (hp : 0 ≤ p.currentPrice) (hc : (-1 : ℝ) ≤ p.cagr) :
    effectivePrice p ((c.year - 1) * 12 + 1) ≤ 0
    ∧ (calculateDCAScenario p).yearlyData.length = p.years := by
  constructor
  · have hm : ((((c.year - 1) * 12 + 1 : ℕ)) : ℤ) = crashStartMonth c := by
      rw [crashStartMonth]
      omega
    have hfind : activeCrash p ((c.year - 1) * 12 + 1) = some c := by
      rw [activeCrash, hlist]
      apply List.find?_cons_of_pos
      have hrec : (1 : ℤ) ≤ (crashRecovery c : ℤ) := by
        have := crashRecovery_pos c
        omega
      simp only [decide_eq_true_eq, hm]
      omega
    rw [effectivePrice, hfind]
    unfold crashAdjustedPrice
    dsimp only
    rw [hm, if_pos (sub_self (crashStartMonth c))]
    have hbase : 0 ≤ undisturbedPrice p ((c.year - 1) * 12 + 1) :=
      mul_nonneg hp (Real.rpow_nonneg (by linarith) _)
    exact mul_nonpos_iff.mpr (Or.inl ⟨hbase, by linarith⟩)
  · simp [calculateDCAScenario]

/-- Witness for C1: the corrected statement applied to the concrete
total-crash configuration `paramsDropOne`. -/
theorem C1_witness :
    paramsDropOne.marketCrashes = (⟨1, 1, 12⟩ : MarketCrash) :: []
    ∧ (1 : ℝ) ≤ (⟨1, 1, 12⟩ : MarketCrash).drop
    ∧ 1 ≤ (⟨1, 1, 12⟩ : MarketCrash).year
    ∧ (0 : ℝ) ≤ paramsDropOne.currentPrice
    ∧ (-1 : ℝ) ≤ paramsDropOne.cagr
    ∧ (effectivePrice paramsDropOne (((⟨1, 1, 12⟩ : MarketCrash).year - 1) * 12 + 1) ≤ 0
       ∧ (calculateDCAScenario paramsDropOne).yearlyData.length = paramsDropOne.years) :=
  ⟨rfl, le_refl 1, le_refl 1, by norm_num [paramsDropOne], by norm_num [paramsDropOne],
    C1_no_validation paramsDropOne ⟨1, 1, 12⟩ [] rfl (le_refl 1) (le_refl 1)
      (by norm_num [paramsDropOne]) (by norm_num [paramsDropOne])⟩

/-! ## Lemmas about the monthly state transition -/

/-- The year-start reset only touches `yearDividends`. -/
lemma resetYearDividends_fields (month : ℕ) (s : DCAState) :
    (resetYearDividends month s).shares = s.shares ∧
    (resetYearDividends month s).cashBuffer = s.cashBuffer ∧
    (resetYearDividends month s).totalDividendsReceived = s.totalDividendsReceived ∧
    (resetYearDividends month s).totalDividendsReinvested = s.totalDividendsReinvested := by
  unfold resetYearDividends
  split <;> exact ⟨rfl, rfl, rfl, rfl⟩

/-- The DCA purchase can only increase the share count and touches
neither the buffer nor the dividend totals. -/
lemma applyDCA_fields (p : DCAParams) (price : ℝ) (s : DCAState)
    (hdca : 0 ≤ p.monthlyDCA) (hprice : 0 < price) :
    s.shares ≤ (applyDCA p price s).shares ∧
    (applyDCA p price s).cashBuffer = s.cashBuffer ∧
    (applyDCA p price s).totalDividendsReceived = s.totalDividendsReceived ∧
    (applyDCA p price s).totalDividendsReinvested = s.totalDividendsReinvested := by
  unfold applyDCA
  split
  · exact ⟨le_add_of_nonneg_right (div_nonneg hdca hprice.le), rfl, rfl, rfl⟩
  · exact ⟨le_rfl, rfl, rfl, rfl⟩

/-- The dividend accrued in one month. -/
noncomputable def monthlyDividendOf (p : DCAParams) (price : ℝ) (year : ℕ)
    (s : DCAState) : ℝ :=
  s.shares * (price * p.currentDividendYield * (1 + p.dividendGrowth) ^ (year - 1)) / 12

/-- The dividend accrual adds the monthly dividend to the buffer and to
the received total, leaving shares and the reinvested total unchanged. -/
lemma receiveDividend_fields (p : DCAParams) (price : ℝ) (year : ℕ) (s : DCAState) :
    (receiveDividend p price year s).shares = s.shares ∧
    (receiveDividend p price year s).cashBuffer =
      s.cashBuffer + monthlyDividendOf p price year s ∧
    (receiveDividend p price year s).totalDividendsReceived =
      s.totalDividendsReceived + monthlyDividendOf p price year s ∧
    (receiveDividend p price year s).totalDividendsReinvested =
      s.totalDividendsReinvested :=
  ⟨rfl, rfl, rfl, rfl⟩

/-- The monthly dividend is non-negative for valid parameters and a
non-negative share count. -/
lemma monthlyDividendOf_nonneg (p : DCAParams) (price : ℝ) (year : ℕ)
    (s : DCAState) (hs : 0 ≤ s.shares) (hprice : 0 ≤ price)
    (hyield : 0 ≤ p.currentDividendYield) (hg : (-1 : ℝ) ≤ p.dividendGrowth) :
    0 ≤ monthlyDividendOf p price year s := by
  unfold monthlyDividendOf
  have hpow : (0 : ℝ) ≤ (1 + p.dividendGrowth) ^ (year - 1) :=
    pow_nonneg (by linarith) _
  positivity

/-- The step decomposition of `stepMonth`. -/
lemma stepMonth_eq (p : DCAParams) (m : ℕ) (s : DCAState) :
    stepMonth p m s =
      reinvestIfThreshold p (effectivePrice p m)
        (receiveDividend p (effectivePrice p m) ((m - 1) / 12 + 1)
          (applyDCA p (effectivePrice p m)
            (resetYearDividends ((m - 1) % 12 + 1) s))) := rfl

/-- One month of simulation keeps the share count non-negative and
non-decreasing and the buffer non-negative. -/
lemma stepMonth_key (p : DCAParams) (hv : ValidParams p) (m : ℕ) (s : DCAState)
    (hs : 0 ≤ s.shares) (hb : 0 ≤ s.cashBuffer) :
    s.shares ≤ (stepMonth p m s).shares ∧
    0 ≤ (stepMonth p m s).shares ∧
    0 ≤ (stepMonth p m s).cashBuffer := by
  have hprice : 0 < effectivePrice p m := effectivePrice_pos hv m
  obtain ⟨hii, hdca, hyield, hth, hp, hc, hg, hcr⟩ := hv
  obtain ⟨r₀s, r₀b, r₀r, r₀v⟩ :=
    resetYearDividends_fields ((m - 1) % 12 + 1) s
  obtain ⟨a₁s, a₁b, a₁r, a₁v⟩ :=
    applyDCA_fields p (effectivePrice p m)
      (resetYearDividends ((m - 1) % 12 + 1) s) hdca hprice
  set s₁ := applyDCA p (effectivePrice p m)
    (resetYearDividends ((m - 1) % 12 + 1) s) with hs₁
  obtain ⟨d₂s, d₂b, d₂r, d₂v⟩ :=
    receiveDividend_fields p (effectivePrice p m) ((m - 1) / 12 + 1) s₁
  set s₂ := receiveDividend p (effectivePrice p m) ((m - 1) / 12 + 1) s₁ with hs₂
  have hs₁shares : 0 ≤ s₁.shares := le_trans hs (r₀s ▸ a₁s)
  have hmd : 0 ≤ monthlyDividendOf p (effectivePrice p m) ((m - 1) / 12 + 1) s₁ :=
    monthlyDividendOf_nonneg p _ _ s₁ hs₁shares hprice.le hyield hg
  have hs₂shares : 0 ≤ s₂.shares := d₂s ▸ hs₁shares
  have hs₂buf : 0 ≤ s₂.cashBuffer := by
    rw [d₂b, a₁b, r₀b]
    exact add_nonneg hb hmd
  have hshares₂ : s.shares ≤ s₂.shares := by
    rw [d₂s]
    exact le_trans (le_of_eq r₀s.symm) a₁s
  rw [stepMonth_eq, ← hs₁, ← hs₂]
  unfold reinvestIfThreshold
  split
  · refine ⟨?_, ?_, le_rfl⟩
    · exact le_trans hshares₂ (le_add_of_nonneg_right (div_nonneg hs₂buf hprice.le))
    · exact le_trans hs₂shares (le_add_of_nonneg_right (div_nonneg hs₂buf hprice.le))
  · exact ⟨hshares₂, hs₂shares, hs₂buf⟩

/-- The loop state stays well-formed at every month. -/
lemma stateAtMonth_inv (p : DCAParams) (hv : ValidParams p) :
    ∀ n : ℕ, 0 ≤ (stateAtMonth p n).shares ∧ 0 ≤ (stateAtMonth p n).cashBuffer := by
  intro n
  induction n with
  | zero =>
    show 0 ≤ (initState p).shares ∧ 0 ≤ (initState p).cashBuffer
    unfold initState
    split
    · rename_i hpos
      exact ⟨div_nonneg hpos.le hv.2.2.2.2.1.le, le_rfl⟩
    · exact ⟨le_rfl, le_rfl⟩
  | succ n ih =>
    have h := stepMonth_key p hv (n + 1) (stateAtMonth p n) ih.1 ih.2
    exact ⟨h.2.1, h.2.2⟩

/-! ## C9: shares are non-negative and non-decreasing -/

/-- Claim C9: for valid parameters (non-negative cash-flow inputs,
positive start price, `CAGR > -1`, `dividendGrowth ≥ -1`, crash drops in
`[0, 1)`), the share count is non-negative at every simulated month and
never decreases from one month to the next. -/
theorem C9_shares_monotone (p : DCAParams) (hv : ValidParams p) (n : ℕ) :
    0 ≤ (stateAtMonth p n).shares ∧
    (stateAtMonth p n).shares ≤ (stateAtMonth p (n + 1)).shares := by
  have hinv := stateAtMonth_inv p hv n
  exact ⟨hinv.1, (stepMonth_key p hv (n + 1) (stateAtMonth p n) hinv.1 hinv.2).1⟩

/-- Witness for C9: the baseline scenario at the first month. -/
theorem C9_witness :
    ValidParams paramsBasic ∧
    (0 ≤ (stateAtMonth paramsBasic 0).shares ∧
      (stateAtMonth paramsBasic 0).shares ≤ (stateAtMonth paramsBasic 1).shares) := by
  have hv : ValidParams paramsBasic := by
    refine ⟨?_, ?_, ?_, ?_, ?_, ?_, ?_, ?_⟩ <;>
      simp [paramsBasic] <;> norm_num
  exact ⟨hv, C9_shares_monotone paramsBasic hv 0⟩

/-! ## C7: full-buffer reinvestment and the zero-threshold run -/

/-- With a zero threshold, each month reinvests the whole dividend, so
the buffer returns to zero and the reinvested total tracks the received
total exactly. -/
lemma stepMonth_thresholdZero (p : DCAParams) (hv : ValidParams p)
    (hth : p.reinvestThreshold = 0) (m : ℕ) (s : DCAState)
    (hs : 0 ≤ s.shares) (hb : s.cashBuffer = 0)
    (heq : s.totalDividendsReinvested = s.totalDividendsReceived) :
    0 ≤ (stepMonth p m s).shares ∧ (stepMonth p m s).cashBuffer = 0 ∧
    (stepMonth p m s).totalDividendsReinvested =
      (stepMonth p m s).totalDividendsReceived := by
  have hprice : 0 < effectivePrice p m := effectivePrice_pos hv m
  obtain ⟨hii, hdca, hyield, hthr, hp, hc, hg, hcr⟩ := hv
  obtain ⟨r₀s, r₀b, r₀r, r₀v⟩ :=
    resetYearDividends_fields ((m - 1) % 12 + 1) s
  obtain ⟨a₁s, a₁b, a₁r, a₁v⟩ :=
    applyDCA_fields p (effectivePrice p m)
      (resetYearDividends ((m - 1) % 12 + 1) s) hdca hprice
  set s₁ := applyDCA p (effectivePrice p m)
    (resetYearDividends ((m - 1) % 12 + 1) s) with hs₁
  obtain ⟨d₂s, d₂b, d₂r, d₂v⟩ :=
    receiveDividend_fields p (effectivePrice p m) ((m - 1) / 12 + 1) s₁
  set s₂ := receiveDividend p (effectivePrice p m) ((m - 1) / 12 + 1) s₁ with hs₂
  have hs₁shares : 0 ≤ s₁.shares := le_trans hs (r₀s ▸ a₁s)
  have hmd : 0 ≤ monthlyDividendOf p (effectivePrice p m) ((m - 1) / 12 + 1) s₁ :=
    monthlyDividendOf_nonneg p _ _ s₁ hs₁shares hprice.le hyield hg
  have hs₂shares : 0 ≤ s₂.shares := d₂s ▸ hs₁shares
  have hbuf₂ : s₂.cashBuffer =
      monthlyDividendOf p (effectivePrice p m) ((m - 1) / 12 + 1) s₁ := by
    rw [d₂b, a₁b, r₀b, hb, zero_add]
  have hcond : p.reinvestThreshold ≤ s₂.cashBuffer := by
    rw [hth, hbuf₂]
    exact hmd
  rw [stepMonth_eq, ← hs₁, ← hs₂]
  unfold reinvestIfThreshold
  rw [if_pos hcond]
  refine ⟨?_, rfl, ?_⟩
  · exact add_nonneg hs₂shares (div_nonneg (hbuf₂ ▸ hmd) hprice.le)
  · show s₂.totalDividendsReinvested + s₂.cashBuffer = s₂.totalDividendsReceived
    rw [d₂v, a₁v, r₀v, d₂r, a₁r, r₀r, hbuf₂, heq]

/-- With a zero threshold, the run-long invariant: buffer `0`,
reinvested total equal to received total. -/
lemma stateAtMonth_thresholdZero (p : DCAParams) (hv : ValidParams p)
    (hth : p.reinvestThreshold = 0) :
    ∀ n : ℕ, 0 ≤ (stateAtMonth p n).shares ∧
      (stateAtMonth p n).cashBuffer = 0 ∧
      (stateAtMonth p n).totalDividendsReinvested =
        (stateAtMonth p n).totalDividendsReceived := by
  intro n
  induction n with
  | zero =>
    show 0 ≤ (initState p).shares ∧ (initState p).cashBuffer = 0 ∧
      (initState p).totalDividendsReinvested = (initState p).totalDividendsReceived
    unfold initState
    split
    · rename_i hpos
      exact ⟨div_nonneg hpos.le hv.2.2.2.2.1.le, rfl, rfl⟩
    · exact ⟨le_rfl, rfl, rfl⟩
  | succ n ih =>
    exact stepMonth_thresholdZero p hv hth (n + 1) (stateAtMonth p n)
      ih.1 ih.2.1 ih.2.2

/-- Claim C7: (i) whenever the buffer reaches the threshold, the entire
buffer is converted into shares at this month's price, the full amount is
added to the reinvested total and the buffer is reset to exactly `0`
(never a partial reinvestment); (ii) consequently, a run with
`reinvestThreshold = 0` (and valid parameters) ends with
`totalDividendsReinvested` exactly equal to `totalDividendsReceived` and
a final buffer of `0`. -/
theorem C7_full_reinvestment :
    (∀ (p : DCAParams) (price : ℝ) (s : DCAState),
        p.reinvestThreshold ≤ s.cashBuffer →
          reinvestIfThreshold p price s =
            { s with shares := s.shares + s.cashBuffer / price
                     totalDividendsReinvested :=
                       s.totalDividendsReinvested + s.cashBuffer
                     cashBuffer := 0 })
    ∧ ∀ p : DCAParams, ValidParams p → p.reinvestThreshold = 0 →
        (calculateDCAScenario p).totalDividendsReinvested =
          (calculateDCAScenario p).totalDividendsReceived
        ∧ (stateAtMonth p (p.years * 12)).cashBuffer = 0 := by
  constructor
  · intro p price s h
    unfold reinvestIfThreshold
    rw [if_pos h]
  · intro p hv hth
    have h := stateAtMonth_thresholdZero p hv hth (p.years * 12)
    exact ⟨h.2.2, h.2.1⟩

/-- Witness for C7: part (i) at a concrete state whose buffer `60`
exceeds the threshold `50`, and part (ii) at the concrete zero-threshold
scenario. -/
theorem C7_witness :
    (paramsBasic.reinvestThreshold ≤ (⟨10, 60, 0, 0, 0, 0⟩ : DCAState).cashBuffer
     ∧ reinvestIfThreshold paramsBasic 100 ⟨10, 60, 0, 0, 0, 0⟩ =
        { (⟨10, 60, 0, 0, 0, 0⟩ : DCAState) with
            shares := (⟨10, 60, 0, 0, 0, 0⟩ : DCAState).shares +
              (⟨10, 60, 0, 0, 0, 0⟩ : DCAState).cashBuffer / 100
            totalDividendsReinvested :=
              (⟨10, 60, 0, 0, 0, 0⟩ : DCAState).totalDividendsReinvested +
                (⟨10, 60, 0, 0, 0, 0⟩ : DCAState).cashBuffer
            cashBuffer := 0 })
    ∧ (ValidParams paramsThresholdZero ∧ paramsThresholdZero.reinvestThreshold = 0)
    ∧ ((calculateDCAScenario paramsThresholdZero).totalDividendsReinvested =
        (calculateDCAScenario paramsThresholdZero).totalDividendsReceived
       ∧ (stateAtMonth paramsThresholdZero
            (paramsThresholdZero.years * 12)).cashBuffer = 0) := by
  have hv : ValidParams paramsThresholdZero := by
    refine ⟨?_, ?_, ?_, ?_, ?_, ?_, ?_, ?_⟩ <;>
      simp [paramsThresholdZero] <;> norm_num
  have hle : paramsBasic.reinvestThreshold ≤ (⟨10, 60, 0, 0, 0, 0⟩ : DCAState).cashBuffer := by
    show (50 : ℝ) ≤ 60
    norm_num
  exact ⟨⟨hle, C7_full_reinvestment.1 paramsBasic 100 ⟨10, 60, 0, 0, 0, 0⟩ hle⟩,
    ⟨hv, rfl⟩, C7_full_reinvestment.2 paramsThresholdZero hv rfl⟩

end DividendDashboard
